import Mathlib

/-!
Shallow embedding of the X6 diagram-editing engine fragments under scrutiny:
the edge-handler reconnection logic (`EdgeHandler`, `EdgeHandlerMarker`),
the overlay bounds computation (`Overlay.getBounds`), the router endpoint
utilities (`getSourceEndpoint` / `getTargetEndpoint`), the callout perimeter
function, and the `hook()` method-wrapping decorator.

Coordinates are embedded as rationals (the source's JS numbers only undergo
ring operations and division here), and JS `Math.round` as `jsRound`.
-/

namespace X6

/-- JS `Math.round`: rounds half-way cases toward positive infinity. -/
def jsRound (q : ℚ) : ℤ := ⌊q + 1/2⌋

/-- `Point` from `src/struct`: a pair of coordinates. -/
structure Point where
  x : ℚ
  y : ℚ
deriving DecidableEq, Repr

/-- `Rectangle` from `src/struct`: position plus size. -/
structure Rectangle where
  x : ℚ
  y : ℚ
  width : ℚ
  height : ℚ
deriving DecidableEq, Repr

def Rectangle.getCenterX (r : Rectangle) : ℚ := r.x + r.width / 2

def Rectangle.getCenterY (r : Rectangle) : ℚ := r.y + r.height / 2

def Rectangle.getCenter (r : Rectangle) : Point := ⟨r.getCenterX, r.getCenterY⟩

/- ------------------------------------------------------------------ -/
/- C1: EdgeHandler.mouseUp error gating (edge-handler.ts 1227-1353)   -/
/- ------------------------------------------------------------------ -/

/-- Which kind of handle the completed drag was operating. Mirrors the
`else if` chain of `EdgeHandler.mouseUp`. -/
inductive HandleKind where
  | custom
  | label
  | terminal
  | innerActive
  | innerInactive
deriving DecidableEq, Repr

/-- Observable outcome of `EdgeHandler.mouseUp`: the message passed to
`graph.validationWarn` (if any) and whether a model-mutating branch ran. -/
structure MouseUpOutcome where
  warned : Option String
  modelChanged : Bool
deriving DecidableEq, Repr

/-- Embedding of the decision structure of `EdgeHandler.mouseUp`
(edge-handler.ts lines 1234-1337).  `moved` is the
`e.getClientX() !== this.startX || e.getClientY() !== this.startY` guard;
`error` is `this.error`; `hasTerminal` is whether a valid terminal cell was
found for a source/target drag; `danglingEnabled` is
`graph.isDanglingEdgesEnabled()`. -/
def mouseUpDecision (moved : Bool) (error : Option String) (kind : HandleKind)
    (hasTerminal : Bool) (danglingEnabled : Bool) : MouseUpOutcome :=
  if !moved then ⟨none, false⟩
  else
    match error with
    | some err =>
        -- `if (this.error.length > 0) this.graph.validationWarn(this.error)`
        ⟨if err.length > 0 then some err else none, false⟩
    | none =>
        match kind with
        | .custom => ⟨none, true⟩
        | .label => ⟨none, true⟩
        | .terminal =>
            if hasTerminal then ⟨none, true⟩
            else if danglingEnabled then ⟨none, true⟩
            else ⟨none, false⟩
        | .innerActive => ⟨none, true⟩
        | .innerInactive => ⟨none, false⟩

/- ------------------------------------------------------------------ -/
/- C8: EdgeHandler.removePoint (edge-handler.ts 640-651)              -/
/- ------------------------------------------------------------------ -/

/-- Edge `Geometry` fragment from `src/struct`: the optional user waypoint
list and the optional dangling terminal points. -/
structure Geometry where
  sourcePoint : Option Point
  targetPoint : Option Point
  points : Option (List Point)
deriving DecidableEq, Repr

/-- Embedding of `EdgeHandler.removePoint` (edge-handler.ts lines 640-651):
the geometry the edge carries after the call.  `absLen` is
`this.absolutePoints.length`; the JS guard `index > 0 && index < absLen - 1`
is written `0 < index && index + 1 < absLen`, equivalent over the integers. -/
def removePoint (absLen : ℕ) (index : ℕ) (geo : Geometry) : Geometry :=
  if 0 < index ∧ index + 1 < absLen then
    match geo.points with
    | some ps => { geo with points := some (ps.eraseIdx (index - 1)) }
    | none => geo
  else geo

/- ------------------------------------------------------------------ -/
/- C10: the hook() decorator (packages/x6/src/graph/decorator.ts 4-31) -/
/- ------------------------------------------------------------------ -/

/-- Embedding of the method produced by the `hook()` decorator
(decorator.ts lines 16-29).  JS `null`/`undefined` results are `none`.
`hookFn` is `this.options[name]` (absent hook = `none`); `raw` is the
original method. -/
def hookWrapped {α β : Type} (hookFn : Option (α → Option β))
    (ignoreNullResult : Bool) (raw : α → Option β) (args : α) : Option β :=
  match hookFn with
  | none => raw args
  | some h =>
      let ret := h args
      if ret.isSome || ignoreNullResult then ret else raw args

/- ------------------------------------------------------------------ -/
/- C9: Overlay.getBounds (src/struct/overlay.ts 40-87)                -/
/- ------------------------------------------------------------------ -/

/-- Horizontal overlay alignment, `Align` from `src/types`. -/
inductive Align where
  | left
  | center
  | right
deriving DecidableEq, Repr

/-- Vertical overlay alignment, `VAlign` from `src/types`. -/
inductive VAlign where
  | top
  | middle
  | bottom
deriving DecidableEq, Repr

/-- `Image` fragment from `src/struct`: just the dimensions `getBounds` reads. -/
structure Image where
  width : ℚ
  height : ℚ
deriving DecidableEq, Repr

/-- The `Overlay` fields read by `getBounds`. -/
structure Overlay where
  image : Image
  align : Align
  verticalAlign : VAlign
  offset : Point
  defaultOverlap : ℚ
deriving DecidableEq, Repr

/-- The part of a `State` that `Overlay.getBounds` inspects: an edge state
carries its absolute points, a node state its bounds. -/
inductive StateKind where
  | edge (pts : List Point)
  | node (bounds : Rectangle)
deriving DecidableEq, Repr

/-- The anchor point `pt` computed by `Overlay.getBounds`
(overlay.ts lines 48-79).  `none` models the JS failure mode where
`pts[idx - 1]` / `pts[idx]` is absent (e.g. an empty point list). -/
def overlayAnchor (o : Overlay) (k : StateKind) : Option Point :=
  match k with
  | .edge pts =>
      if pts.length % 2 = 1 then pts.get? (pts.length / 2)
      else
        match pts.get? (pts.length / 2 - 1), pts.get? (pts.length / 2) with
        | some p0, some p1 =>
            some ⟨p0.x + (p1.x - p0.x) / 2, p0.y + (p1.y - p0.y) / 2⟩
        | _, _ => none
  | .node b =>
      let px : ℚ :=
        match o.align with
        | .left => b.x
        | .center => b.x + b.width / 2
        | .right => b.x + b.width
      let py : ℚ :=
        match o.verticalAlign with
        | .top => b.y
        | .middle => b.y + b.height / 2
        | .bottom => b.y + b.height
      some ⟨px, py⟩

/-- Embedding of `Overlay.getBounds` (overlay.ts lines 40-87):
the returned rectangle, built from the anchor point, the image size,
`defaultOverlap`, `offset` and the view scale `s`. -/
def overlayGetBounds (o : Overlay) (s : ℚ) (k : StateKind) : Option Rectangle :=
  (overlayAnchor o k).map fun pt =>
    ⟨(jsRound (pt.x - (o.image.width * o.defaultOverlap - o.offset.x) * s) : ℤ),
     (jsRound (pt.y - (o.image.height * o.defaultOverlap - o.offset.y) * s) : ℤ),
     o.image.width * s,
     o.image.height * s⟩

/- ------------------------------------------------------------------ -/
/- C5: router endpoint utilities (registry/router/util.ts 13-53)      -/
/- ------------------------------------------------------------------ -/

/-- Resolved per-side padding, `NumberExt.SideOptions` with all sides set. -/
structure SideOptions where
  left : ℚ
  top : ℚ
  right : ℚ
  bottom : ℚ
deriving DecidableEq, Repr

/-- The `padding` option of the router utilities: a single number or an
explicit per-side record (`NumberExt.SideOptions`). -/
inductive PaddingInput where
  | num (n : ℚ)
  | sides (s : SideOptions)
deriving DecidableEq, Repr

/-- Modelled from the spec: `NumberExt.normalizeSides` is not among the
provided sources; the spec's "side-offsets" type resolves a single number
to that value on every side ("default 20 on every side" arises from
`normalizeSides(20)`), and an explicit record is kept as given. -/
def normalizeSides : PaddingInput → SideOptions
  | .num n => ⟨n, n, n, n⟩
  | .sides s => s

/-- Embedding of `getPaddingBox` (registry/router/util.ts lines 13-22):
`options.padding || 20` then the move-and-expand box. -/
def getPaddingBox (padding : Option PaddingInput) : Rectangle :=
  let s := normalizeSides (padding.getD (.num 20))
  ⟨-s.left, -s.top, s.left + s.right, s.top + s.bottom⟩

/-- Modelled from the spec: `Rectangle.moveAndExpand` is not among the
provided sources; it shifts the rectangle by the box's `(x, y)` and grows
its size by the box's `(width, height)` — exactly how the spec's padding
expansion of a bounding box behaves. -/
def Rectangle.moveAndExpand (r box : Rectangle) : Rectangle :=
  ⟨r.x + box.x, r.y + box.y, r.width + box.width, r.height + box.height⟩

/-- The `EdgeView` fields read by the router endpoint utilities:
the raw terminal bounding boxes and the already-resolved endpoints. -/
structure EdgeView where
  sourceBBox : Rectangle
  targetBBox : Rectangle
  sourceEndpoint : Option Point
  targetEndpoint : Option Point
deriving DecidableEq, Repr

/-- Embedding of `getSourceBBox` (util.ts lines 24-26). -/
def getSourceBBox (view : EdgeView) (padding : Option PaddingInput) : Rectangle :=
  view.sourceBBox.moveAndExpand (getPaddingBox padding)

/-- Embedding of `getTargetBBox` (util.ts lines 28-30). -/
def getTargetBBox (view : EdgeView) (padding : Option PaddingInput) : Rectangle :=
  view.targetBBox.moveAndExpand (getPaddingBox padding)

/-- Embedding of `getSourceEndpoint` (util.ts lines 32-41). -/
def getSourceEndpoint (view : EdgeView) (padding : Option PaddingInput) : Point :=
  match view.sourceEndpoint with
  | some p => p
  | none => (getSourceBBox view padding).getCenter

/-- Embedding of `getTargetEndpoint` (util.ts lines 43-53). -/
def getTargetEndpoint (view : EdgeView) (padding : Option PaddingInput) : Point :=
  match view.targetEndpoint with
  | some p => p
  | none => (getTargetBBox view padding).getCenter

/- ------------------------------------------------------------------ -/
/- C6: calloutPerimeter (unnamed/part_001 61-71) and determinism      -/
/- ------------------------------------------------------------------ -/

/-- Squared distance between two points (used to pick a nearest candidate). -/
def sqDist (a b : Point) : ℚ := (a.x - b.x) ^ 2 + (a.y - b.y) ^ 2

/-- Modelled from the spec: `rectanglePerimeter` (from `perimeter/rectangle`)
is not among the provided sources.  Per the spec, the default perimeter for a
rectangle "returns the intersection of the bounds edge with the ray toward
`nearPoint`", and with `orthogonal` set it "snaps to the nearest of the four
edge midline crossings rather than the true nearest point". -/
def rectanglePerimeter (bounds : Rectangle) (next : Point)
    (orthogonal : Bool) : Point :=
  let cx := bounds.getCenterX
  let cy := bounds.getCenterY
  if orthogonal then
    let cands : List Point :=
      [⟨cx, bounds.y⟩, ⟨cx, bounds.y + bounds.height⟩,
       ⟨bounds.x, cy⟩, ⟨bounds.x + bounds.width, cy⟩]
    cands.foldl
      (fun best c => if sqDist c next < sqDist best next then c else best)
      ⟨cx, bounds.y⟩
  else
    let dx := next.x - cx
    let dy := next.y - cy
    if dx = 0 ∧ dy = 0 then ⟨cx, cy⟩
    else if |dy| * bounds.width ≥ |dx| * bounds.height then
      let py := if dy > 0 then bounds.y + bounds.height else bounds.y
      ⟨cx + (if dy = 0 then 0 else dx * (py - cy) / dy), py⟩
    else
      let px := if dx > 0 then bounds.x + bounds.width else bounds.x
      ⟨px, cy + dy * (px - cx) / dx⟩

/-- Modelled from the spec: `getFactor` (from `shape/.../util`) is not among
the provided sources; it resolves a numeric style key, falling back to the
shape's default when the style carries none (a pure style-dictionary
"defaults resolution" in the spec's terms). -/
def getFactor (styleValue : Option ℚ) (deflt : ℚ) : ℚ := styleValue.getD deflt

/-- Modelled from the spec: `util.getDirectedBounds` is not among the provided
sources; it shrinks the shape bounds by the given margin rectangle (the
callout reserves its tail height at the bottom of the body), a pure function
of its arguments. -/
def getDirectedBounds (bounds margins : Rectangle) : Rectangle :=
  ⟨bounds.x + margins.x, bounds.y + margins.y,
   bounds.width - margins.x - margins.width,
   bounds.height - margins.y - margins.height⟩

/-- Embedding of `calloutPerimeter` (unnamed/part_001 lines 61-71).
`styleFactor` is `state.style.factor` (the `getFactor` lookup input,
default `CalloutShape.prototype.factor = 30`); `scale` is
`state.view.scale`. -/
def calloutPerimeter (bounds : Rectangle) (styleFactor : Option ℚ)
    (scale : ℚ) (next : Point) (orthogonal : Bool) : Point :=
  let factor := getFactor styleFactor 30
  let rect : Rectangle := ⟨0, 0, 0, factor * scale⟩
  let directedBounds := getDirectedBounds bounds rect
  rectanglePerimeter directedBounds next orthogonal

/- ------------------------------------------------------------------ -/
/- C2: updatePreviewState constraint style (edge-handler.ts 1185-1203)-/
/- ------------------------------------------------------------------ -/

/-- A connection `Constraint` from `src/struct`: an optional fixed
fractional point. -/
structure Constraint where
  point : Option Point
deriving DecidableEq, Repr

/-- The exit/entry keys of an edge's preview style that
`updatePreviewState` mutates; `none` models an absent (deleted) key. -/
structure EdgeStyle where
  exitX : Option ℚ
  exitY : Option ℚ
  entryX : Option ℚ
  entryY : Option ℚ
deriving DecidableEq, Repr

/-- Embedding of the constraint-to-style block of
`EdgeHandler.updatePreviewState` (edge-handler.ts lines 1185-1203), which
runs when a source or target handle is being dragged.  `isSourceHandle`
selects the exit keys, otherwise the entry keys are written. -/
def updatePreviewConstraintStyle (isSourceHandle : Bool)
    (constraint : Option Constraint) (style : EdgeStyle) : EdgeStyle :=
  match constraint with
  | some c =>
      match c.point with
      | some p =>
          if isSourceHandle then
            { style with exitX := some p.x, exitY := some p.y }
          else
            { style with entryX := some p.x, entryY := some p.y }
      | none =>
          if isSourceHandle then { style with exitX := none, exitY := none }
          else { style with entryX := none, entryY := none }
  | none =>
      if isSourceHandle then { style with exitX := none, exitY := none }
      else { style with entryX := none, entryY := none }

/-- Modelled from the spec: `view.updateFixedTerminalPoint` / the
connection-point resolution consuming `exitX`/`exitY` is not among the
provided sources.  The spec: "if fixed, map the fractional
(x,y) ∈ [0,1]×[0,1] onto the terminal's bounds directly (no
perimeter-function call)". -/
def fixedConnectionPoint (bounds : Rectangle) (c : Point) : Point :=
  ⟨bounds.x + c.x * bounds.width, bounds.y + c.y * bounds.height⟩

/- ------------------------------------------------------------------ -/
/- C4: dangling drop (edge-handler.ts 1216-1221, 1307-1331, 1500-1528)-/
/- ------------------------------------------------------------------ -/

/-- Embedding of the coordinate conversion `EdgeHandler.mouseUp` applies to
the dropped absolute point before `changeTerminalPoint`
(edge-handler.ts lines 1309-1327): divide by the view scale, subtract the
view translate (via `roundLength` = `Math.round`), subtract the parent
state's origin when one exists, then subtract the graph's panning offset
`(tx, ty)` divided by the scale. -/
def danglingDropPoint (p : Point) (scale : ℚ) (translate : Point)
    (parentOrigin : Option Point) (tx ty : ℚ) : Point :=
  let x1 : ℚ := jsRound (p.x / scale - translate.x)
  let y1 : ℚ := jsRound (p.y / scale - translate.y)
  let x2 := match parentOrigin with
    | some o => x1 - o.x
    | none => x1
  let y2 := match parentOrigin with
    | some o => y1 - o.y
    | none => y1
  ⟨x2 - tx / scale, y2 - ty / scale⟩

/-- Modelled from the spec: `Geometry.setTerminalPoint` is not among the
provided sources; per the spec's dangling-edge policy, the terminal's
"point" is "simply the user-set absolute coordinate — no perimeter
resolution occurs", stored on the source or target slot of the geometry. -/
def Geometry.setTerminalPoint (g : Geometry) (p : Point)
    (isSource : Bool) : Geometry :=
  if isSource then { g with sourcePoint := some p }
  else { g with targetPoint := some p }

def Geometry.terminalPoint (g : Geometry) (isSource : Bool) : Option Point :=
  if isSource then g.sourcePoint else g.targetPoint

/-- The model-visible state of one edge: its geometry and its two terminal
references (cells by id; `none` = dangling). -/
structure EdgeModelState where
  geometry : Geometry
  sourceTerminal : Option ℕ
  targetTerminal : Option ℕ
deriving DecidableEq, Repr

def EdgeModelState.terminal (ed : EdgeModelState) (isSource : Bool) : Option ℕ :=
  if isSource then ed.sourceTerminal else ed.targetTerminal

/-- Embedding of the non-cloning path of `EdgeHandler.changeTerminalPoint`
(edge-handler.ts lines 1500-1528): clone the geometry, store the point on
the dragged end with `setTerminalPoint`, and `connectCell(edge, null,
isSource, ...)` — i.e. connect that end to no cell. -/
def changeTerminalPoint (ed : EdgeModelState) (point : Point)
    (isSource : Bool) : EdgeModelState :=
  let g := ed.geometry.setTerminalPoint point isSource
  if isSource then
    { geometry := g, sourceTerminal := none,
      targetTerminal := ed.targetTerminal }
  else
    { geometry := g, sourceTerminal := ed.sourceTerminal,
      targetTerminal := none }

/-- Embedding of the dangling-error assignment in
`EdgeHandler.updatePreviewState` (edge-handler.ts line 1219), reached when a
terminal handle is dragged with no terminal state and no marked state:
`this.error = (this.graph.allowDanglingEdges) ? null : ''`. -/
def previewDanglingError (allowDanglingEdges : Bool) : Option String :=
  if allowDanglingEdges then none else some ""

/- ------------------------------------------------------------------ -/
/- C3: EdgeHandlerMarker.getCell (edge-handler.ts 1934-1980)          -/
/- ------------------------------------------------------------------ -/

/-- The environment `EdgeHandlerMarker.getCell` consults: the edited edge,
the hit cell from `CellMarker.getCell`, the cell under the preview point,
and the graph/model predicates it calls.  Cells are identified by `ℕ`;
predicates over `Option ℕ` receive `none` where the JS code passes `null`. -/
structure MarkerEnv where
  edge : ℕ
  superCell : Option ℕ
  hasCurrentPoint : Bool
  cellAtPreview : Option ℕ
  parent : ℕ → Option ℕ
  isNode : Option ℕ → Bool
  cellIsEdge : ℕ → Bool
  isCellConnectable : Option ℕ → Bool
  handlerConnectable : Option ℕ → Bool
  isSwimlane : Option ℕ → Bool
  hitsSwimlaneContent : Option ℕ → Bool
  edgesConnectable : Bool
  isAncestor : ℕ → Option ℕ → Bool

/-- The candidate cell that the nulling conditions of
`EdgeHandlerMarker.getCell` examine (edge-handler.ts lines 1936-1952):
the hit cell, re-queried at the preview point when it was the edited edge
or null, then replaced by its connectable parent node when itself not
connectable. -/
def markerCandidate (env : MarkerEnv) : Option ℕ :=
  let cell0 := env.superCell
  let cell1 :=
    if (cell0 = some env.edge ∨ cell0 = none) ∧ env.hasCurrentPoint then
      env.cellAtPreview
    else cell0
  match cell1 with
  | some c =>
      if env.isCellConnectable (some c) = false then
        let pr := env.parent c
        if env.isNode pr = true ∧ env.isCellConnectable pr = true then pr
        else some c
      else some c
  | none => none

/-- The disjunction guarding the `cell = null` assignment of
`EdgeHandlerMarker.getCell` (edge-handler.ts lines 1954-1971): swimlane
content hit, handler veto, the edited edge itself, an edge while edges are
not connectable, or a descendant of the edited edge. -/
def markerNullCond (env : MarkerEnv) (cell : Option ℕ) : Prop :=
  (env.isSwimlane cell = true ∧ env.hasCurrentPoint = true ∧
      env.hitsSwimlaneContent cell = true)
    ∨ env.handlerConnectable cell = false
    ∨ (cell = some env.edge ∨
        (cell ≠ none ∧ env.edgesConnectable = false ∧
          (match cell with | some c => env.cellIsEdge c | none => false) = true))
    ∨ env.isAncestor env.edge cell = true

instance (env : MarkerEnv) (cell : Option ℕ) :
    Decidable (markerNullCond env cell) := by
  unfold markerNullCond
  infer_instance

/-- The final guard of `EdgeHandlerMarker.getCell` (edge-handler.ts lines
1975-1977): `if (!this.graph.isCellConnectable(cell)) cell = null`. -/
def markerConnectFilter (env : MarkerEnv) (cell : Option ℕ) : Option ℕ :=
  if env.isCellConnectable cell = false then none else cell

/-- Embedding of `EdgeHandlerMarker.getCell`
(edge-handler.ts lines 1934-1980): the candidate is nulled when
`markerNullCond` holds of it, and a non-connectable result is nulled by
`markerConnectFilter`. -/
def markerGetCell (env : MarkerEnv) : Option ℕ :=
  markerConnectFilter env
    (if markerNullCond env (markerCandidate env) then none
     else markerCandidate env)

/- ------------------------------------------------------------------ -/
/- C7: EdgeHandler.getPreviewPoints (edge-handler.ts 886-987)         -/
/- ------------------------------------------------------------------ -/

/-- Embedding of `EdgeHandler.convertPoint` (edge-handler.ts lines
1405-1427): optional grid snap (via the abstract `snap`, whose source is
not provided), then divide by the view scale, subtract the view translate,
round, and subtract the parent state's origin when one exists. -/
def convertPoint (p : Point) (gridEnabled : Bool) (snap : ℚ → ℚ)
    (scale : ℚ) (translate : Point) (parentOrigin : Option Point) : Point :=
  let x0 := if gridEnabled then snap p.x else p.x
  let y0 := if gridEnabled then snap p.y else p.y
  let x1 : ℚ := jsRound (x0 / scale - translate.x)
  let y1 : ℚ := jsRound (y0 / scale - translate.y)
  match parentOrigin with
  | some o => ⟨x1 - o.x, y1 - o.y⟩
  | none => ⟨x1, y1⟩

/-- `this.index` during an edge-handle drag: either a plain handle index or
the encoded index of a virtual (segment-midpoint) handle.  The JS encoding
uses special negative values for virtual handles, so an encoded virtual
index never equals a plain loop counter. -/
inductive HandleIndex where
  | normal (i : ℕ)
  | visual (i : ℕ)
deriving DecidableEq, Repr

/-- The merge-removal loop of `getPreviewPoints` (edge-handler.ts lines
905-922): walking the handle list, each handle with index accepted by
`active` whose bounds contain the drag point splices one waypoint out at
`pos`.  Returns the resulting list and whether any removal fired
(`result != null` in the source). -/
def mergeRemoveLoop (active : ℕ → Bool) (pos : ℕ) :
    List Bool → ℕ → List Point → List Point × Bool
  | [], _, ps => (ps, false)
  | c :: rest, i, ps =>
      if active i && c then
        ((mergeRemoveLoop active pos rest (i + 1) (ps.eraseIdx pos)).1, true)
      else
        mergeRemoveLoop active pos rest (i + 1) ps

/-- Embedding of `EdgeHandler.getPreviewPoints` (edge-handler.ts lines
886-987).  `handleContains` gives, per handle, the result of
`handle.bounds.containsPoint(p)` (`none` models `this.handles == null`);
`straightTrigger` abstracts the whole straighten-removal test
(`straightRemoveEnabled && !alt` together with the range and distance
conditions of `checkRemove`, whose `ptSegmentDist` helper is not among the
provided sources).  The `points[index - 1] = point` store is modelled in-range
(`List.set`); a plain inner handle has index ≥ 1 in the source, the handles
at the ends being the source/target handles. -/
def getPreviewPoints (p : Point) (index : HandleIndex)
    (isSourceHandle isTargetHandle : Bool) (geoPoints : Option (List Point))
    (handleContains : Option (List Bool)) (straightTrigger : Bool)
    (resetEdgesOnConnect : Bool) (snap : ℚ → ℚ) (scale : ℚ)
    (translate : Point) (parentOrigin : Option Point) : Option (List Point) :=
  if !isSourceHandle && !isTargetHandle then
    let point := convertPoint p false snap scale translate parentOrigin
    match geoPoints with
    | none => some [point]
    | some ps0 =>
        let ps1 := match index with
          | .visual k => ps0.insertIdx k point
          | .normal _ => ps0
        let pos := match index with
          | .visual k => k
          | .normal n => n - 1
        let activeIdx : ℕ → Bool := fun i =>
          match index with
          | .visual _ => true
          | .normal n => decide (i ≠ n)
        let merged := match handleContains with
          | some cs => mergeRemoveLoop activeIdx pos cs 0 ps1
          | none => (ps1, false)
        let removed := merged.2
        let straightens := !removed && straightTrigger &&
          (match index with | .normal _ => true | .visual _ => false)
        let ps3 := if straightens then merged.1.eraseIdx pos else merged.1
        let anyRemoved := removed || straightens
        let ps4 :=
          if !anyRemoved then
            match index with
            | .normal n => ps3.set (n - 1) point
            | .visual _ => ps3
          else ps3
        some ps4
  else if resetEdgesOnConnect then none
  else geoPoints

/- ================================================================== -/
/- Theorems                                                           -/
/- ================================================================== -/

/-- C1: for every completed reconnect drag processed by
`EdgeHandler.mouseUp`, a non-null validation error blocks the change
(no model-mutating branch runs), and a validation warning is surfaced if
and only if the error string is non-empty — an empty-string error blocks
silently, a non-empty one blocks and reports that very message. -/
theorem mouseUp_error_blocks_and_warns_iff_nonempty
    (s : String) (k : HandleKind) (ht de : Bool) :
    (mouseUpDecision true (some s) k ht de).modelChanged = false ∧
    ((mouseUpDecision true (some s) k ht de).warned ≠ none ↔ s ≠ "") ∧
    (mouseUpDecision true (some s) k ht de).warned =
      (if s.length > 0 then some s else none) := by
  refine ⟨rfl, ?_, rfl⟩
  have hlen : s.length = s.data.length := rfl
  constructor
  · intro hw hemp
    subst hemp
    simp [mouseUpDecision] at hw
  · intro hne
    have hd : s.data ≠ [] := by
      intro h
      apply hne
      cases s with
      | mk d => subst h; rfl
    have hpos : 0 < s.length := by
      rw [hlen]
      exact List.length_pos.mpr hd
    simp [mouseUpDecision, hpos]

/-- C2: during edge preview with a fixed connection constraint on the
dragged end, `updatePreviewState` writes the constraint's fractional point
verbatim into `exitX`/`exitY` (source end) or `entryX`/`entryY` (target
end), deletes them when the constraint carries no fixed point, and the
spec's fixed-point resolution maps the fraction straight onto the terminal
bounds — so the fixed source constraint (0.5, 1.0) resolves to the bounds'
exact bottom-center, independent of the target. -/
theorem updatePreview_fixed_constraint_spec
    (style : EdgeStyle) (p : Point) (b : Rectangle) :
    (updatePreviewConstraintStyle true (some ⟨some p⟩) style).exitX = some p.x ∧
    (updatePreviewConstraintStyle true (some ⟨some p⟩) style).exitY = some p.y ∧
    (updatePreviewConstraintStyle false (some ⟨some p⟩) style).entryX = some p.x ∧
    (updatePreviewConstraintStyle false (some ⟨some p⟩) style).entryY = some p.y ∧
    (updatePreviewConstraintStyle true (some ⟨none⟩) style).exitX = none ∧
    (updatePreviewConstraintStyle true (some ⟨none⟩) style).exitY = none ∧
    (updatePreviewConstraintStyle false (some ⟨none⟩) style).entryX = none ∧
    (updatePreviewConstraintStyle false (some ⟨none⟩) style).entryY = none ∧
    fixedConnectionPoint b ⟨1/2, 1⟩ = ⟨b.x + b.width / 2, b.y + b.height⟩ := by
  refine ⟨rfl, rfl, rfl, rfl, rfl, rfl, rfl, rfl, ?_⟩
  simp only [fixedConnectionPoint, Point.mk.injEq]
  constructor <;> ring

/-- C4: a drag ending over no valid terminal with dangling edges enabled
converts the dropped point to unscaled, untranslated graph coordinates
(divide by scale, round, subtract translate, the parent origin, and the
panning offset over scale); `changeTerminalPoint` stores exactly that
coordinate as the geometry's terminal point on the dragged end while
connecting that end to null and leaving the other end untouched; with
dangling edges disabled the preview error becomes the empty string. -/
theorem dangling_drop_stores_exact_point
    (p : Point) (scale : ℚ) (translate : Point) (o : Option Point)
    (tx ty : ℚ) (ed : EdgeModelState) (isSource : Bool) :
    (changeTerminalPoint ed (danglingDropPoint p scale translate o tx ty)
        isSource).geometry.terminalPoint isSource =
      some (danglingDropPoint p scale translate o tx ty) ∧
    (changeTerminalPoint ed (danglingDropPoint p scale translate o tx ty)
        isSource).terminal isSource = none ∧
    (changeTerminalPoint ed (danglingDropPoint p scale translate o tx ty)
        isSource).terminal (!isSource) = ed.terminal (!isSource) ∧
    (danglingDropPoint p scale translate o tx ty).x =
      ((jsRound (p.x / scale - translate.x) : ℤ) : ℚ) -
        (match o with | some oo => oo.x | none => 0) - tx / scale ∧
    (danglingDropPoint p scale translate o tx ty).y =
      ((jsRound (p.y / scale - translate.y) : ℤ) : ℚ) -
        (match o with | some oo => oo.y | none => 0) - ty / scale ∧
    previewDanglingError false = some "" ∧
    previewDanglingError true = none := by
  refine ⟨?_, ?_, ?_, ?_, ?_, rfl, rfl⟩
  · cases isSource <;>
      simp [changeTerminalPoint, Geometry.terminalPoint, Geometry.setTerminalPoint]
  · cases isSource <;> simp [changeTerminalPoint, EdgeModelState.terminal]
  · cases isSource <;> simp [changeTerminalPoint, EdgeModelState.terminal]
  · cases o <;> simp [danglingDropPoint]
  · cases o <;> simp [danglingDropPoint]

/-- C5: `getSourceEndpoint` / `getTargetEndpoint` return the view's
already-resolved endpoint when set; otherwise the center of the terminal's
bounding box expanded by the normalized padding — by 20 on every side under
the default options, in which case the center coincides with the raw
center of the unexpanded box. -/
theorem router_endpoint_spec (view : EdgeView) (padding : Option PaddingInput) :
    (∀ p, view.sourceEndpoint = some p → getSourceEndpoint view padding = p) ∧
    (∀ p, view.targetEndpoint = some p → getTargetEndpoint view padding = p) ∧
    (view.sourceEndpoint = none → getSourceEndpoint view padding =
      (view.sourceBBox.moveAndExpand (getPaddingBox padding)).getCenter) ∧
    (view.targetEndpoint = none → getTargetEndpoint view padding =
      (view.targetBBox.moveAndExpand (getPaddingBox padding)).getCenter) ∧
    getPaddingBox none = ⟨-20, -20, 40, 40⟩ ∧
    normalizeSides (.num 20) = ⟨20, 20, 20, 20⟩ ∧
    (view.sourceEndpoint = none →
      getSourceEndpoint view none = view.sourceBBox.getCenter) := by
  refine ⟨?_, ?_, ?_, ?_, ?_, rfl, ?_⟩
  · intro p hp; simp [getSourceEndpoint, hp]
  · intro p hp; simp [getTargetEndpoint, hp]
  · intro hp; simp [getSourceEndpoint, getSourceBBox, hp]
  · intro hp; simp [getTargetEndpoint, getTargetBBox, hp]
  · simp only [getPaddingBox, normalizeSides, Option.getD, Rectangle.mk.injEq]
    norm_num
  · intro hp
    simp only [getSourceEndpoint, getSourceBBox, hp, Rectangle.moveAndExpand,
      getPaddingBox, normalizeSides, Option.getD, Rectangle.getCenter,
      Rectangle.getCenterX, Rectangle.getCenterY, Point.mk.injEq]
    constructor <;> ring

/-- C5 witness: with a resolved endpoint the endpoint itself is returned;
without one and with default options, the center of the 20-padded source
box — which equals the raw center (40, 15) of bounds (0, 0, 80, 30). -/
theorem router_endpoint_spec_witness :
    getSourceEndpoint ⟨⟨0, 0, 80, 30⟩, ⟨200, 0, 80, 30⟩, some ⟨77, 7⟩, none⟩
        none = ⟨77, 7⟩ ∧
    getSourceEndpoint ⟨⟨0, 0, 80, 30⟩, ⟨200, 0, 80, 30⟩, none, none⟩ none =
      ⟨40, 15⟩ := by
  constructor
  · exact (router_endpoint_spec _ none).1 ⟨77, 7⟩ rfl
  · have h := (router_endpoint_spec
      ⟨⟨0, 0, 80, 30⟩, ⟨200, 0, 80, 30⟩, none, none⟩ none).2.2.2.2.2.2 rfl
    rw [h]
    norm_num [Rectangle.getCenter, Rectangle.getCenterX, Rectangle.getCenterY]

/-- C6: the perimeter and router endpoint functions are deterministic —
two calls of `calloutPerimeter` (and of the endpoint utilities) on
identical inputs produce identical output points; the embedded functions
depend on nothing but their arguments. -/
theorem routing_functions_deterministic
    (b1 b2 : Rectangle) (f1 f2 : Option ℚ) (s1 s2 : ℚ) (n1 n2 : Point)
    (o1 o2 : Bool) (v1 v2 : EdgeView) (p1 p2 : Option PaddingInput)
    (hb : b1 = b2) (hf : f1 = f2) (hs : s1 = s2) (hn : n1 = n2)
    (ho : o1 = o2) (hv : v1 = v2) (hp : p1 = p2) :
    calloutPerimeter b1 f1 s1 n1 o1 = calloutPerimeter b2 f2 s2 n2 o2 ∧
    getSourceEndpoint v1 p1 = getSourceEndpoint v2 p2 ∧
    getTargetEndpoint v1 p1 = getTargetEndpoint v2 p2 := by
  subst hb hf hs hn ho hv hp
  exact ⟨rfl, rfl, rfl⟩

/-- C6 witness: both runs on a concrete identical input agree. -/
theorem routing_functions_deterministic_witness :
    calloutPerimeter ⟨0, 0, 100, 100⟩ none 1 ⟨200, 35⟩ false =
      calloutPerimeter ⟨0, 0, 100, 100⟩ none 1 ⟨200, 35⟩ false ∧
    getSourceEndpoint ⟨⟨0, 0, 80, 30⟩, ⟨200, 0, 80, 30⟩, none, none⟩ none =
      getSourceEndpoint ⟨⟨0, 0, 80, 30⟩, ⟨200, 0, 80, 30⟩, none, none⟩ none ∧
    getTargetEndpoint ⟨⟨0, 0, 80, 30⟩, ⟨200, 0, 80, 30⟩, none, none⟩ none =
      getTargetEndpoint ⟨⟨0, 0, 80, 30⟩, ⟨200, 0, 80, 30⟩, none, none⟩ none :=
  routing_functions_deterministic _ _ _ _ _ _ _ _ _ _ _ _ _ _
    rfl rfl rfl rfl rfl rfl rfl

/-- C8: `EdgeHandler.removePoint` touches the geometry only for a strictly
inner index with a present waypoint list, splicing out the single waypoint
at `index - 1`; index 0, the last index, an absent waypoint list, or an
out-of-range index all leave the geometry unchanged — terminal points are
never removed. -/
theorem removePoint_spec (absLen index : ℕ) (geo : Geometry) :
    (index = 0 → removePoint absLen index geo = geo) ∧
    (index = absLen - 1 → removePoint absLen index geo = geo) ∧
    (geo.points = none → removePoint absLen index geo = geo) ∧
    (∀ ps, 0 < index → index + 1 < absLen → geo.points = some ps →
      removePoint absLen index geo =
        { geo with points := some (ps.eraseIdx (index - 1)) }) := by
  refine ⟨?_, ?_, ?_, ?_⟩
  · intro h; subst h; simp [removePoint]
  · intro h
    subst h
    unfold removePoint
    rw [if_neg (by omega)]
  · intro h
    unfold removePoint
    split
    · rw [h]
    · rfl
  · intro ps h1 h2 hps
    unfold removePoint
    rw [if_pos ⟨h1, h2⟩, hps]

/-- C8 witness: concrete calls — index 0 and the last index leave a
geometry untouched, an inner index removes exactly waypoint `index - 1`. -/
theorem removePoint_spec_witness :
    removePoint 4 0 ⟨none, none, some [⟨1, 1⟩, ⟨2, 2⟩]⟩ =
      ⟨none, none, some [⟨1, 1⟩, ⟨2, 2⟩]⟩ ∧
    removePoint 4 3 ⟨none, none, some [⟨1, 1⟩, ⟨2, 2⟩]⟩ =
      ⟨none, none, some [⟨1, 1⟩, ⟨2, 2⟩]⟩ ∧
    removePoint 4 2 ⟨none, none, some [⟨1, 1⟩, ⟨2, 2⟩]⟩ =
      ⟨none, none, some [⟨1, 1⟩]⟩ := by
  refine ⟨(removePoint_spec 4 0 _).1 rfl, (removePoint_spec 4 3 _).2.1 (by decide), ?_⟩
  have h := (removePoint_spec 4 2 ⟨none, none, some [⟨1, 1⟩, ⟨2, 2⟩]⟩).2.2.2
    [⟨1, 1⟩, ⟨2, 2⟩] (by decide) (by decide) rfl
  exact h.trans (by decide)

/-- C10: a method wrapped by the `hook()` decorator behaves like the
unwrapped method when no hook is configured, and when the configured hook
returns null while `ignoreNullResult` is false; when the hook returns a
non-null value or `ignoreNullResult` is true, the hook's result is
returned instead. -/
theorem hookWrapped_refines_raw {α β : Type}
    (hookFn : Option (α → Option β)) (ig : Bool) (raw : α → Option β)
    (args : α) :
    (hookFn = none → hookWrapped hookFn ig raw args = raw args) ∧
    (∀ h, hookFn = some h → h args = none → ig = false →
      hookWrapped hookFn ig raw args = raw args) ∧
    (∀ h, hookFn = some h → ((h args).isSome = true ∨ ig = true) →
      hookWrapped hookFn ig raw args = h args) := by
  refine ⟨?_, ?_, ?_⟩
  · intro h; subst h; rfl
  · intro h hh hn hig
    subst hh hig
    simp [hookWrapped, hn]
  · intro h hh hcase
    subst hh
    rcases hcase with hsome | hig
    · simp [hookWrapped, hsome]
    · subst hig
      simp [hookWrapped]

/-- C10 witness: a concrete graph option set — no hook falls through to the
raw method, a null-returning hook falls through, a non-null hook result
replaces the raw result. -/
theorem hookWrapped_refines_raw_witness :
    hookWrapped (α := ℕ) (β := ℕ) none false (fun n => some (n + 1)) 5 =
      some 6 ∧
    hookWrapped (some fun _ => none) false (fun n => some (n + 1)) 5 =
      some 6 ∧
    hookWrapped (some fun n => some (n * 2)) false (fun n => some (n + 1)) 5 =
      some 10 := by
  refine ⟨?_, ?_, ?_⟩
  · have h := (hookWrapped_refines_raw (α := ℕ) (β := ℕ) none false
      (fun n => some (n + 1)) 5).1 rfl
    rw [h]
  · have h := (hookWrapped_refines_raw (some fun _ => (none : Option ℕ)) false
      (fun n => some (n + 1)) 5).2.1 (fun _ => none) rfl rfl rfl
    rw [h]
  · have h := (hookWrapped_refines_raw (some fun n => some (n * 2)) false
      (fun n => some (n + 1)) 5).2.2 (fun n => some (n * 2)) rfl (Or.inl rfl)
    rw [h]

/-- C3: `EdgeHandlerMarker.getCell` returns null whenever the candidate
cell it examines is the edited edge itself, whenever the edited edge is an
ancestor of that cell, or whenever the cell is not connectable; dually,
any cell it does return is distinct from the edge, has the edge as no
ancestor, and is connectable — a reconnection can never make an edge a
terminal of itself or of one of its own descendants. -/
theorem marker_getCell_never_self_or_descendant (env : MarkerEnv) :
    (markerCandidate env = some env.edge → markerGetCell env = none) ∧
    (env.isAncestor env.edge (markerCandidate env) = true →
      markerGetCell env = none) ∧
    (env.isCellConnectable (markerCandidate env) = false →
      markerGetCell env = none) ∧
    (∀ c, markerGetCell env = some c →
      c ≠ env.edge ∧ env.isAncestor env.edge (some c) = false ∧
      env.isCellConnectable (some c) = true) := by
  refine ⟨?_, ?_, ?_, ?_⟩
  · intro h
    have hbig : markerNullCond env (markerCandidate env) := by
      unfold markerNullCond
      exact Or.inr (Or.inr (Or.inl (Or.inl h)))
    unfold markerGetCell
    rw [if_pos hbig]
    unfold markerConnectFilter
    split <;> rfl
  · intro h
    have hbig : markerNullCond env (markerCandidate env) := by
      unfold markerNullCond
      exact Or.inr (Or.inr (Or.inr h))
    unfold markerGetCell
    rw [if_pos hbig]
    unfold markerConnectFilter
    split <;> rfl
  · intro h
    unfold markerGetCell markerConnectFilter
    by_cases hbig : markerNullCond env (markerCandidate env)
    · rw [if_pos hbig]
      split <;> rfl
    · rw [if_neg hbig, if_pos h]
  · intro c hres
    unfold markerGetCell markerConnectFilter at hres
    by_cases hbig : markerNullCond env (markerCandidate env)
    · rw [if_pos hbig] at hres
      split at hres <;> exact Option.noConfusion hres
    · rw [if_neg hbig] at hres
      by_cases hc : env.isCellConnectable (markerCandidate env) = false
      · rw [if_pos hc] at hres
        exact Option.noConfusion hres
      · rw [if_neg hc] at hres
        unfold markerNullCond at hbig
        push_neg at hbig
        obtain ⟨-, -, h3, h4⟩ := hbig
        refine ⟨?_, ?_, ?_⟩
        · intro hce
          exact h3.1 (by rw [hres, hce])
        · rw [hres] at h4
          cases h2 : env.isAncestor env.edge (some c) with
          | false => rfl
          | true => exact absurd h2 h4
        · rw [hres] at hc
          cases h2 : env.isCellConnectable (some c) with
          | false => exact absurd h2 hc
          | true => rfl

/-- C3 witness: a concrete environment where the candidate is the edited
edge itself, and the call returns null. -/
theorem marker_getCell_never_self_or_descendant_witness :
    markerCandidate
        ⟨7, some 7, false, none, fun _ => none, fun _ => false, fun _ => false,
         fun _ => true, fun _ => true, fun _ => false, fun _ => false, true,
         fun _ _ => false⟩ = some 7 ∧
    markerGetCell
        ⟨7, some 7, false, none, fun _ => none, fun _ => false, fun _ => false,
         fun _ => true, fun _ => true, fun _ => false, fun _ => false, true,
         fun _ _ => false⟩ = none := by
  refine ⟨rfl, ?_⟩
  exact (marker_getCell_never_self_or_descendant _).1 rfl

/-- C9: `Overlay.getBounds` anchors at the middle absolute point of an
edge state (odd count), at the midpoint of the two central points (even
count), and at the alignment-selected corner or edge-midpoint of a node
state's bounds; the returned rectangle has size `image * scale` and sits
at the anchor minus `(imageSize * defaultOverlap - offset) * scale`,
with its position rounded to integers. -/
theorem overlay_getBounds_spec (o : Overlay) (s : ℚ) :
    (∀ pts pt, pts.length % 2 = 1 → pts.get? (pts.length / 2) = some pt →
      overlayGetBounds o s (.edge pts) = some
        ⟨((jsRound (pt.x - (o.image.width * o.defaultOverlap - o.offset.x) * s) : ℤ) : ℚ),
         ((jsRound (pt.y - (o.image.height * o.defaultOverlap - o.offset.y) * s) : ℤ) : ℚ),
         o.image.width * s, o.image.height * s⟩) ∧
    (∀ pts p0 p1, pts.length % 2 = 0 →
      pts.get? (pts.length / 2 - 1) = some p0 →
      pts.get? (pts.length / 2) = some p1 →
      overlayGetBounds o s (.edge pts) = some
        ⟨((jsRound ((p0.x + (p1.x - p0.x) / 2) -
            (o.image.width * o.defaultOverlap - o.offset.x) * s) : ℤ) : ℚ),
         ((jsRound ((p0.y + (p1.y - p0.y) / 2) -
            (o.image.height * o.defaultOverlap - o.offset.y) * s) : ℤ) : ℚ),
         o.image.width * s, o.image.height * s⟩) ∧
    (∀ b, ∃ pt, overlayAnchor o (.node b) = some pt ∧
      (o.align = .left → pt.x = b.x) ∧
      (o.align = .center → pt.x = b.x + b.width / 2) ∧
      (o.align = .right → pt.x = b.x + b.width) ∧
      (o.verticalAlign = .top → pt.y = b.y) ∧
      (o.verticalAlign = .middle → pt.y = b.y + b.height / 2) ∧
      (o.verticalAlign = .bottom → pt.y = b.y + b.height) ∧
      overlayGetBounds o s (.node b) = some
        ⟨((jsRound (pt.x - (o.image.width * o.defaultOverlap - o.offset.x) * s) : ℤ) : ℚ),
         ((jsRound (pt.y - (o.image.height * o.defaultOverlap - o.offset.y) * s) : ℤ) : ℚ),
         o.image.width * s, o.image.height * s⟩) ∧
    (∀ k r, overlayGetBounds o s k = some r →
      r.width = o.image.width * s ∧ r.height = o.image.height * s) := by
  refine ⟨?_, ?_, ?_, ?_⟩
  · intro pts pt hodd hpt
    have hanch : overlayAnchor o (.edge pts) = some pt := by
      unfold overlayAnchor
      dsimp only
      rw [if_pos hodd]
      exact hpt
    unfold overlayGetBounds
    rw [hanch]
    rfl
  · intro pts p0 p1 heven hp0 hp1
    have hne : ¬ (pts.length % 2 = 1) := by omega
    have hanch : overlayAnchor o (.edge pts) =
        some ⟨p0.x + (p1.x - p0.x) / 2, p0.y + (p1.y - p0.y) / 2⟩ := by
      unfold overlayAnchor
      dsimp only
      rw [if_neg hne, hp0, hp1]
    unfold overlayGetBounds
    rw [hanch]
    rfl
  · intro b
    refine ⟨_, rfl, ?_, ?_, ?_, ?_, ?_, ?_, rfl⟩ <;>
      · intro h
        simp [overlayAnchor, h]
  · intro k r hr
    unfold overlayGetBounds at hr
    cases hanch : overlayAnchor o k with
    | none => rw [hanch] at hr; exact Option.noConfusion hr
    | some pt =>
        rw [hanch] at hr
        simp only [Option.map_some'] at hr
        cases hr
        exact ⟨rfl, rfl⟩

/-- C9 witness: a concrete 3-point edge state anchors at the middle
point, and a node state with bottom-center alignment anchors at the
bounds' bottom-center; both rectangles have the scaled image size. -/
theorem overlay_getBounds_spec_witness :
    overlayGetBounds ⟨⟨16, 16⟩, .center, .bottom, ⟨0, 0⟩, (1 : ℚ)/2⟩ 1
        (.edge [⟨0, 0⟩, ⟨10, 10⟩, ⟨20, 0⟩]) = some ⟨2, 2, 16, 16⟩ ∧
    overlayGetBounds ⟨⟨16, 16⟩, .center, .bottom, ⟨0, 0⟩, (1 : ℚ)/2⟩ 1
        (.node ⟨0, 0, 80, 30⟩) = some ⟨32, 22, 16, 16⟩ := by
  constructor
  · have h := (overlay_getBounds_spec ⟨⟨16, 16⟩, .center, .bottom, ⟨0, 0⟩,
      (1 : ℚ)/2⟩ 1).1 [⟨0, 0⟩, ⟨10, 10⟩, ⟨20, 0⟩] ⟨10, 10⟩ (by decide) rfl
    rw [h]
    norm_num [jsRound]
  · obtain ⟨pt, hanch, -, hcx, -, -, -, hby, hbounds⟩ :=
      (overlay_getBounds_spec ⟨⟨16, 16⟩, .center, .bottom, ⟨0, 0⟩,
        (1 : ℚ)/2⟩ 1).2.2.1 ⟨0, 0, 80, 30⟩
    rw [hbounds]
    have hx : pt.x = 40 := by rw [hcx rfl]; norm_num
    have hy : pt.y = 30 := by rw [hby rfl]; norm_num
    rw [hx, hy]
    norm_num [jsRound]

/-- Helper: the merge-removal loop removes nothing when no participating
handle contains the drag point. -/
theorem mergeRemoveLoop_noop (active : ℕ → Bool) (pos : ℕ) :
    ∀ (cs : List Bool) (start : ℕ) (ps : List Point),
      (∀ i, i < cs.length → (active (start + i) && cs.getD i false) = false) →
      mergeRemoveLoop active pos cs start ps = (ps, false) := by
  intro cs
  induction cs with
  | nil => intro start ps _; rfl
  | cons c rest ih =>
      intro start ps h
      have h0 : (active start && c) = false := by
        have := h 0 (by simp)
        simpa using this
      unfold mergeRemoveLoop
      rw [if_neg (by simp [h0])]
      exact ih (start + 1) ps (fun i hi => by
        have := h (i + 1) (by simpa using Nat.succ_lt_succ hi)
        simpa [Nat.add_assoc, Nat.add_comm 1 i] using this)

/-- C7: dragging an inner (non-source, non-target, non-virtual) handle at
index `n` — with the drag point inside no other handle's bounds and no
straighten-segment removal firing — makes `getPreviewPoints` return the
existing waypoint list with exactly the waypoint at position `n - 1`
replaced by the converted drag point; every other waypoint is preserved
unchanged and in place. -/
theorem getPreviewPoints_inner_drag_replaces_waypoint
    (p : Point) (n : ℕ) (ps : List Point) (cs : List Bool) (snap : ℚ → ℚ)
    (scale : ℚ) (translate : Point) (parentOrigin : Option Point)
    (reset : Bool) (hn : 1 ≤ n) (hlen : n - 1 < ps.length)
    (hcs : ∀ i, i < cs.length → i ≠ n → cs.getD i false = false) :
    getPreviewPoints p (.normal n) false false (some ps) (some cs) false
        reset snap scale translate parentOrigin =
      some (ps.set (n - 1)
        (convertPoint p false snap scale translate parentOrigin)) ∧
    (ps.set (n - 1)
        (convertPoint p false snap scale translate parentOrigin)).length =
      ps.length ∧
    (ps.set (n - 1)
        (convertPoint p false snap scale translate parentOrigin))[n - 1]? =
      some (convertPoint p false snap scale translate parentOrigin) ∧
    (∀ j, j ≠ n - 1 →
      (ps.set (n - 1)
        (convertPoint p false snap scale translate parentOrigin))[j]? =
      ps[j]?) := by
  have hloop : mergeRemoveLoop (fun i => decide (i ≠ n)) (n - 1) cs 0 ps =
      (ps, false) := by
    apply mergeRemoveLoop_noop
    intro i hi
    by_cases hin : i = n
    · subst hin
      simp
    · rw [hcs i hi hin, Bool.and_false]
  refine ⟨?_, by simp, ?_, ?_⟩
  · unfold getPreviewPoints
    dsimp only
    rw [hloop]
    simp
  · rw [List.getElem?_set_self']
    simp [List.getElem?_eq_getElem hlen]
  · intro j hj
    exact List.getElem?_set_ne (by omega)

/-- C7 witness: a concrete inner-handle drag on a two-waypoint edge
replaces exactly the first waypoint and keeps the second. -/
theorem getPreviewPoints_inner_drag_replaces_waypoint_witness :
    getPreviewPoints ⟨13, 27⟩ (.normal 1) false false
        (some [⟨1, 1⟩, ⟨5, 5⟩]) (some [false, false, false]) false false
        id 1 ⟨0, 0⟩ none =
      some [⟨13, 27⟩, ⟨5, 5⟩] ∧
    [⟨1, 1⟩, ⟨5, 5⟩].set 0 (convertPoint ⟨13, 27⟩ false id 1 ⟨0, 0⟩ none) =
      ([⟨13, 27⟩, ⟨5, 5⟩] : List Point) := by
  have h := getPreviewPoints_inner_drag_replaces_waypoint ⟨13, 27⟩ 1
    [⟨1, 1⟩, ⟨5, 5⟩] [false, false, false] id 1 ⟨0, 0⟩ none false
    (by decide) (by decide) (by decide)
  have hconv : convertPoint ⟨13, 27⟩ false id 1 ⟨0, 0⟩ none = ⟨13, 27⟩ := by
    unfold convertPoint jsRound
    norm_num
  constructor
  · rw [h.1, hconv]
    rfl
  · rw [hconv]
    rfl

end X6
